import Mathlib

/-!
Verification of the rack repository-management tool (src/rack) against its
natural-language specification.  The Python sources are shallowly embedded:
Python strings become lists of characters, subprocess results become explicit
inputs, dictionaries become insertion-ordered association lists, and a Python
exception escaping a function is an Except.error carrying the exception name.
-/

namespace Rack

/-- Python strings are modelled as lists of characters. -/
abbrev PyStr := List Char

/-- Characters stripped by the Python str.strip() method. -/
def pyIsSpace (c : Char) : Bool :=
  c = ' ' || c = '\t' || c = '\n' || c = '\r' || c = '\x0b' || c = '\x0c'

/-- Python str.strip(): remove leading and trailing whitespace. -/
def pyStrip (l : PyStr) : PyStr :=
  ((l.dropWhile pyIsSpace).reverse.dropWhile pyIsSpace).reverse

/-- Python str.split(sep) for a single-character separator: splits at every
occurrence of the separator, keeping empty fields.  The result is never empty. -/
def pySplitChar (sep : Char) : PyStr → List PyStr
  | [] => [[]]
  | c :: rest =>
    match pySplitChar sep rest with
    | [] => [[c]]
    | t :: ts => if c = sep then [] :: t :: ts else (c :: t) :: ts

/-- Join fields back with a single-character separator (inverse of pySplitChar). -/
def pyJoinChar (sep : Char) : List PyStr → PyStr
  | [] => []
  | [x] => x
  | x :: y :: rest => x ++ sep :: pyJoinChar sep (y :: rest)

/-- Python str.split(sep, maxsplit): at most maxsplit splits are performed and
the unsplit remainder is kept verbatim as the last field. -/
def pySplitMax (sep : Char) (maxsplit : Nat) (l : PyStr) : List PyStr :=
  let parts := pySplitChar sep l
  if parts.length ≤ maxsplit + 1 then parts
  else parts.take maxsplit ++ [pyJoinChar sep (parts.drop maxsplit)]

/-- Python str.splitlines() for LF-terminated text (the only line ending
appearing in the parsed git output): split on newline characters, dropping
the final empty field produced by a trailing newline. -/
def pySplitLines (l : PyStr) : List PyStr :=
  if l = [] then []
  else
    let parts := pySplitChar '\n' l
    if parts.getLastD ['x'] = [] then parts.dropLast else parts

/-- Python str.startswith(pat). -/
def pyStartsWith : PyStr → PyStr → Bool
  | _, [] => true
  | [], _ :: _ => false
  | c :: l, p :: ps => c = p && pyStartsWith l ps

/-- Python str.lower(). -/
def pyLower (l : PyStr) : PyStr := l.map Char.toLower

/-- Numeric value of a string of decimal digits. -/
def digitsToNat (l : PyStr) : Nat := l.foldl (fun a c => a * 10 + (c.toNat - 48)) 0

/-- Value of a nonempty all-digit string, and none otherwise. -/
def pyDigitsVal (l : PyStr) : Option Nat :=
  if !l.isEmpty && l.all Char.isDigit then some (digitsToNat l) else none

/-- Python int(s): strips whitespace, accepts an optional sign followed by a
nonempty run of decimal digits; none models the ValueError raised otherwise. -/
def pyInt (l : PyStr) : Option Int :=
  match pyStrip l with
  | '+' :: rest => (pyDigitsVal rest).map (fun n => (n : Int))
  | '-' :: rest => (pyDigitsVal rest).map (fun n => -(n : Int))
  | t => (pyDigitsVal t).map (fun n => (n : Int))

/-- Python os.path.join for the two-argument POSIX case. -/
def pyPathJoin (a b : PyStr) : PyStr :=
  if pyStartsWith b ['/'] then b
  else if a = [] then b
  else if a.getLastD ' ' = '/' then a ++ b
  else a ++ '/' :: b

/-- Python dict assignment d[k] = v: an existing key keeps its position and
receives the new value; a new key is appended at the end. -/
def dictSet {α : Type} (d : List (PyStr × α)) (k : PyStr) (v : α) : List (PyStr × α) :=
  match d with
  | [] => [(k, v)]
  | (k0, v0) :: rest => if k0 = k then (k0, v) :: rest else (k0, v0) :: dictSet rest k v

/-- Python d.get(k) returning none when the key is absent. -/
def dictGet? {α : Type} (d : List (PyStr × α)) (k : PyStr) : Option α :=
  match d with
  | [] => none
  | (k0, v0) :: rest => if k0 = k then some v0 else dictGet? rest k

/-- Python d.get(k, dflt). -/
def dictGetD {α : Type} (d : List (PyStr × α)) (k : PyStr) (dflt : α) : α :=
  (dictGet? d k).getD dflt

/-- A Python numeric value as stored in the diff_stat dictionary of
git_status_files: an exact integer, or the float('NaN') sentinel. -/
inductive PyNum where
  | int (n : Int)
  | nan
deriving DecidableEq, Repr

/-- Result of subprocess.run(..., capture_output=True): the exit status and
the UTF-8 decoded standard output. -/
structure RunResult where
  returncode : Int
  stdout : PyStr
deriving DecidableEq, Repr

/-- Decidable equality of modelled outcomes (an exception or a value). -/
instance exceptDecEq {ε α : Type} [DecidableEq ε] [DecidableEq α] :
    DecidableEq (Except ε α)
  | Except.error e1, Except.error e2 =>
    if h : e1 = e2 then isTrue (by rw [h])
    else isFalse (by intro hc; cases hc; exact h rfl)
  | Except.error _, Except.ok _ => isFalse (by intro hc; cases hc)
  | Except.ok _, Except.error _ => isFalse (by intro hc; cases hc)
  | Except.ok a1, Except.ok a2 =>
    if h : a1 = a2 then isTrue (by rw [h])
    else isFalse (by intro hc; cases hc; exact h rfl)

/-! ## VerbosityLogger (src/rack/output.py)

VerbosityLogger.error is defined (output.py lines 99-101) as

  def error(self, verbosity, msg, *args, **kwargs): ...

and debug/info/warning/critical (lines 75-109) have the same parameter list.
Python binds a call's positional arguments to (verbosity, msg); a call that
supplies fewer than two positional arguments leaves msg unbound and raises
TypeError before the body runs.  The body itself (a verbosity gate around the
inherited logging.Logger method) has no effect the claims depend on and is
modelled as plain success. -/

/-- Shared calling convention of the five overridden VerbosityLogger methods:
args is the list of positional arguments supplied after self. -/
def vlogCall (args : List PyStr) : Except String Unit :=
  if args.length < 2 then
    Except.error "TypeError: missing required positional argument: msg"
  else Except.ok ()

/-- VerbosityLogger.error (output.py line 99). -/
def vlogError (args : List PyStr) : Except String Unit := vlogCall args

/-- VerbosityLogger.debug (output.py line 75). -/
def vlogDebug (args : List PyStr) : Except String Unit := vlogCall args

/-- VerbosityLogger.info (output.py line 83). -/
def vlogInfo (args : List PyStr) : Except String Unit := vlogCall args

/-- VerbosityLogger.warning (output.py line 91). -/
def vlogWarning (args : List PyStr) : Except String Unit := vlogCall args

/-- VerbosityLogger.critical (output.py line 107). -/
def vlogCritical (args : List PyStr) : Except String Unit := vlogCall args

/-- The inner error(msg, exception=None) function yielded by the
error_recovery context manager (src/rack/__init__.py lines 22-28).  Its first
statement is logger.error(msg), a call with a single positional argument; the
subsequent logger.exception call (the inherited logging.Logger.exception,
which does accept a single argument) and the must_exit update are unreachable
whenever that first call raises.  The returned Bool is the must_exit flag. -/
def error_recovery_error (debug : Bool) (msg : PyStr) (exc : Option PyStr) :
    Except String Bool :=
  match vlogError [msg] with
  | Except.error e => Except.error e
  | Except.ok _ =>
    let _ := exc
    Except.ok debug

/-! ## Status parser (git_status_files, src/rack/__init__.py lines 36-104) -/

/-- Log lines printed when a diff-stat line fails to parse (__init__.py lines
69-71 and 82-84).  This branch is unreachable because recover raises first; it
is modelled for completeness. -/
def diff_stat_fail_log (diff_output : PyStr) : List PyStr :=
  ["Failing diff status output:".toList, diff_output, "END OF DIFF STATUS OUTPUT".toList]

/-- The except-ValueError recovery shared by both parse branches (__init__.py
lines 65-72 and 78-85): recover(msg, e) is called, and only if it returns a
falsy value are the diagnostics printed and NaN substituted.  Since recover's
first statement (logger.error with one positional argument) raises TypeError,
the whole parse aborts here. -/
def diff_stat_recover (debug : Bool) (diff_output line file_path : PyStr)
    (diff_stat : List (PyStr × PyNum)) (logs : List PyStr) :
    Except String (List (PyStr × PyNum) × List PyStr) :=
  match error_recovery_error debug ("Error parsing diff stat line: ".toList ++ line) (some "ValueError".toList) with
  | Except.error e => Except.error e
  | Except.ok _ =>
    Except.ok (dictSet diff_stat (pyStrip file_path) PyNum.nan,
      logs ++ diff_stat_fail_log diff_output)

/-- One iteration of the diff-stat parsing loop of git_status_files
(__init__.py lines 49-86).  Lines without a pipe, and lines whose split on the
pipe does not unpack into exactly two fields, are skipped.  A change field
starting (case-insensitively) with bin is parsed as the binary form
Bin old -> new bytes, giving new minus old; any other change field is parsed
as a plain integer; a field parsing neither way goes through
diff_stat_recover. -/
def diff_stat_step (debug : Bool) (diff_output : PyStr)
    (st : List (PyStr × PyNum) × List PyStr) (line : PyStr) :
    Except String (List (PyStr × PyNum) × List PyStr) :=
  let (diff_stat, logs) := st
  match pySplitChar '|' line with
  | [file_path, changes] =>
    let line_status := (pySplitChar ' ' (pyStrip changes)).headD []
    if pyStartsWith (pyLower line_status) "bin".toList then
      match pySplitChar ' ' (pyStrip changes) with
      | [_, old_size, _, new_size, _] =>
        match pyInt new_size, pyInt old_size with
        | some n, some o =>
          Except.ok (dictSet diff_stat (pyStrip file_path) (PyNum.int (n - o)), logs)
        | _, _ => diff_stat_recover debug diff_output line file_path diff_stat logs
      | _ => diff_stat_recover debug diff_output line file_path diff_stat logs
    else
      match pyInt line_status with
      | some n =>
        Except.ok (dictSet diff_stat (pyStrip file_path) (PyNum.int n), logs)
      | none => diff_stat_recover debug diff_output line file_path diff_stat logs
  | _ => Except.ok st

/-- The diff-stat loop over a list of lines. -/
def diff_stat_lines (debug : Bool) (diff_output : PyStr) :
    List PyStr → List (PyStr × PyNum) × List PyStr →
    Except String (List (PyStr × PyNum) × List PyStr)
  | [], st => Except.ok st
  | line :: rest, st =>
    match diff_stat_step debug diff_output st line with
    | Except.error e => Except.error e
    | Except.ok st2 => diff_stat_lines debug diff_output rest st2

/-- Parsing of the whole git diff --stat output (__init__.py lines 48-86). -/
def parse_diff_stat (debug : Bool) (diff_output : PyStr) :
    Except String (List (PyStr × PyNum) × List PyStr) :=
  diff_stat_lines debug diff_output (pySplitLines diff_output) ([], [])

/-- The diff_stat dictionary built by git_status_files: empty when the
git diff --stat subprocess exited non-zero (__init__.py line 47), otherwise
the parse of its output. -/
def git_diff_stat_of (diff_stat_out : RunResult) (debug : Bool) :
    Except String (List (PyStr × PyNum) × List PyStr) :=
  if diff_stat_out.returncode = 0 then parse_diff_stat debug diff_stat_out.stdout
  else Except.ok ([], [])

/-- The per-line unpack status, file_path of the final comprehension
(__init__.py line 102): a Python tuple unpack of anything but a two-element
list raises ValueError. -/
def unpack_pairs : List (List PyStr) → Except String (List (PyStr × PyStr))
  | [] => Except.ok []
  | parts :: rest =>
    match parts with
    | [status, file_path] =>
      match unpack_pairs rest with
      | Except.error e => Except.error e
      | Except.ok l => Except.ok ((status, file_path) :: l)
    | _ => Except.error "ValueError: unpack"

/-- Body of the result comprehension of git_status_files (__init__.py lines
96-104): untracked entries are kept only under show_untracked, the ?? code is
renamed U, and the line delta is looked up in diff_stat with default 0. -/
def status_record (show_untracked : Bool) (diff_stat : List (PyStr × PyNum))
    (p : PyStr × PyStr) : Option (PyStr × PyStr × PyNum) :=
  if show_untracked || p.1 ≠ "??".toList then
    some ((if p.1 = "??".toList then ['U'] else p.1), p.2,
      dictGetD diff_stat p.2 (PyNum.int 0))
  else none

/-- git_status_files (__init__.py lines 36-104) with the two subprocess
results as explicit inputs.  The diff-stat output is parsed first; then a
non-zero git status exit prints a failure message and yields the empty list;
otherwise each status line is stripped, split once on a space and turned into
a record.  The returned pair is (records, printed output).  The initial
msgout_v progress line is verbosity-gated and omitted here. -/
def git_status_files (repo_path : PyStr) (status_result diff_stat_out : RunResult)
    (show_untracked debug : Bool) :
    Except String (List (PyStr × PyStr × PyNum) × List PyStr) :=
  match git_diff_stat_of diff_stat_out debug with
  | Except.error e => Except.error e
  | Except.ok (diff_stat, logs) =>
    if status_result.returncode ≠ 0 then
      Except.ok ([], logs ++ ["git status failed for ".toList ++ repo_path])
    else
      match unpack_pairs ((pySplitLines status_result.stdout).map
          (fun line => pySplitMax ' ' 1 (pyStrip line))) with
      | Except.error e => Except.error e
      | Except.ok pairs =>
        Except.ok (pairs.filterMap (status_record show_untracked diff_stat), logs)

/-! ## Diff parser (git_diff, src/rack/__init__.py lines 107-163) -/

/-- A line opening a new per-file section of a unified diff. -/
def diff_header_line (l : PyStr) : Bool := pyStartsWith l "diff --git".toList

/-- A line git_diff records under a marker: a hunk header, or an added or
removed line whose sign is followed by a space (the source tests the
two-character strings + and - followed by a space). -/
def diff_marker_line (l : PyStr) : Bool :=
  pyStartsWith l "@@".toList || pyStartsWith l "+ ".toList || pyStartsWith l "- ".toList

/-- State of the git_diff loop: the per-file dictionary and the current file
(None before any diff --git line). -/
abbrev DiffState := List (PyStr × List (Char × PyStr)) × Option PyStr

/-- Appending one recorded entry (__init__.py lines 157-162):
file_diffs[current_file] is evaluated first (KeyError when current_file is
None), then the stored text line.split(" ", 1)[1].strip() (IndexError when the
line has no space). -/
def diff_append (st : DiffState) (marker : Char) (line : PyStr) :
    Except String DiffState :=
  let (file_diffs, current_file) := st
  match current_file with
  | none => Except.error "KeyError: None"
  | some cf =>
    match dictGet? file_diffs cf with
    | none => Except.error "KeyError"
    | some entries =>
      match (pySplitMax ' ' 1 line).get? 1 with
      | none => Except.error "IndexError"
      | some txt =>
        Except.ok (dictSet file_diffs cf (entries ++ [(marker, pyStrip txt)]), current_file)

/-- One iteration of the git_diff loop (__init__.py lines 153-162).  A
diff --git line resets the current file to line.split(" ", 3)[2] and maps it
to a fresh empty list; recognized marker lines are appended under the current
file; every other line is ignored. -/
def git_diff_step (st : DiffState) (line : PyStr) : Except String DiffState :=
  if diff_header_line line then
    match (pySplitMax ' ' 3 line).get? 2 with
    | none => Except.error "IndexError"
    | some cf => Except.ok (dictSet st.1 cf [], some cf)
  else if pyStartsWith line "@@".toList then
    diff_append st '@' line
  else if pyStartsWith line "+ ".toList then
    diff_append st '+' line
  else if pyStartsWith line "- ".toList then
    diff_append st '-' line
  else Except.ok st

/-- The git_diff loop over a list of lines. -/
def git_diff_parse_lines : List PyStr → DiffState → Except String DiffState
  | [], st => Except.ok st
  | line :: rest, st =>
    match git_diff_step st line with
    | Except.error e => Except.error e
    | Except.ok st2 => git_diff_parse_lines rest st2

/-- Parsing of a whole git diff output from the initial state. -/
def git_diff_parse (lines : List PyStr) :
    Except String (List (PyStr × List (Char × PyStr))) :=
  match git_diff_parse_lines lines ([], none) with
  | Except.error e => Except.error e
  | Except.ok st => Except.ok st.1

/-- git_diff (__init__.py lines 107-163) with the subprocess result as an
explicit input.  A non-zero exit prints a failure message and yields an empty
result (the Python function returns the empty list there and a dict
otherwise; both are modelled by the association list).  The returned pair is
(per-file entries, printed output). -/
def git_diff (repo_path : PyStr) (result : RunResult) :
    Except String (List (PyStr × List (Char × PyStr)) × List PyStr) :=
  if result.returncode ≠ 0 then
    Except.ok ([], ["git diff failed for ".toList ++ repo_path])
  else
    match git_diff_parse (pySplitLines result.stdout) with
    | Except.error e => Except.error e
    | Except.ok d => Except.ok (d, [])

/-- get_list_remotes (__init__.py lines 166-174): a non-zero exit prints a
failure message and yields the empty list; otherwise the output lines. -/
def get_list_remotes (repo_path : PyStr) (result : RunResult) :
    List PyStr × List PyStr :=
  if result.returncode ≠ 0 then ([], ["git remote failed for ".toList ++ repo_path])
  else (pySplitLines result.stdout, [])

/-- git_reset (__init__.py lines 177-184). -/
def git_reset (repo_path : PyStr) (result : RunResult) : Bool × List PyStr :=
  if result.returncode ≠ 0 then (false, ["git reset failed for ".toList ++ repo_path])
  else (true, [])

/-- git_pull (__init__.py lines 187-194). -/
def git_pull (repo_path : PyStr) (result : RunResult) : Bool × List PyStr :=
  if result.returncode ≠ 0 then (false, ["git pull failed for ".toList ++ repo_path])
  else (true, [])

/-- git_push (__init__.py lines 197-204). -/
def git_push (repo_path : PyStr) (result : RunResult) : Bool × List PyStr :=
  if result.returncode ≠ 0 then (false, ["git push failed for ".toList ++ repo_path])
  else (true, [])

/-! ## Command dispatcher (main, src/rack/__init__.py lines 335-493) -/

/-- Parsed command-line flags (the argparse namespace).  The list subcommand
flags are carried unconditionally; the source only reads them under the list
action. -/
structure Args where
  show_untracked : Bool
  repo : Option (List PyStr)
  changed : Bool
  next : Bool
  debug : Bool
  action : String
  status : Bool
  show_remotes : Bool
  non_repos : Bool
  non_repos_only : Bool

/-- The external world main interacts with: the working-directory listing
(each entry with its own listing when it is a directory, none otherwise) and
the result of each git subprocess, keyed by the repository path it runs in. -/
structure GitWorld where
  listing : List (PyStr × Option (List PyStr))
  status_out : PyStr → RunResult
  diff_stat_out : PyStr → RunResult
  diff_out : PyStr → RunResult
  remote_out : PyStr → RunResult
  reset_out : PyStr → RunResult
  pull_out : PyStr → RunResult
  push_out : PyStr → RunResult
  home : PyStr

/-- Python truthiness of an argparse repo value: None and the empty list are
falsy. -/
def repo_truthy : Option (List PyStr) → Bool
  | some (_ :: _) => true
  | _ => false

/-- Repository selection (__init__.py lines 349-361): an explicitly given
non-empty -r list wins; otherwise a repos key present in the config file (even
with an empty value) wins; otherwise the immediate subdirectories of the
working directory whose own listing contains a .git entry. -/
def select_repos (repo_flag : Option (List PyStr)) (config_repos : Option (List PyStr))
    (listing : List (PyStr × Option (List PyStr))) : List PyStr :=
  match repo_flag with
  | some (r :: rs) => r :: rs
  | _ =>
    match config_repos with
    | some rs => rs
    | none =>
      (listing.filter (fun e =>
        match e.2 with
        | some entries => decide (".git".toList ∈ entries)
        | none => false)).map Prod.fst

/-- The non-repository subdirectories (__init__.py lines 395-400): immediate
subdirectories whose listing has no .git entry. -/
def non_repo_dirs (listing : List (PyStr × Option (List PyStr))) : List PyStr :=
  (listing.filter (fun e =>
    match e.2 with
    | some entries => decide (".git".toList ∉ entries)
    | none => false)).map Prod.fst

/-- Lexicographic strict order on strings by code point, as Python compares
str values. -/
def pyStrLt : PyStr → PyStr → Bool
  | [], [] => false
  | [], _ :: _ => true
  | _ :: _, [] => false
  | a :: as_, b :: bs => if a = b then pyStrLt as_ bs else decide (a < b)

/-- Stable insertion of a string after every element not greater than it. -/
def insertSorted (x : PyStr) : List PyStr → List PyStr
  | [] => [x]
  | y :: ys => if pyStrLt x y then x :: y :: ys else y :: insertSorted x ys

/-- Python list.sort() on strings: stable ascending sort. -/
def pySortStrs (l : List PyStr) : List PyStr :=
  l.foldl (fun acc x => insertSorted x acc) []

/-- Decimal rendering of a natural number. -/
def pyStrOfNat (n : Nat) : PyStr := Nat.toDigits 10 n

/-- Python str(i) for an integer. -/
def pyStrOfInt : Int → PyStr
  | Int.ofNat n => pyStrOfNat n
  | Int.negSucc m => '-' :: pyStrOfNat (m + 1)

/-- Python str of a diff_stat value (str(float('nan')) is nan). -/
def pyStrOfNum : PyNum → PyStr
  | PyNum.int n => pyStrOfInt n
  | PyNum.nan => "nan".toList

/-- Python format spec value:<w, left-aligned padding with spaces. -/
def padTo (w : Nat) (l : PyStr) : PyStr := l ++ List.replicate (w - l.length) ' '

/-- Python truthiness of a diff_stat value: 0 is falsy; any other number,
including NaN, is truthy. -/
def pyNumTruthy : PyNum → Bool
  | PyNum.int n => n ≠ 0
  | PyNum.nan => true

/-- The apostrophe character, as Python repr quotes strings with. -/
def squote : Char := Char.ofNat 39

/-- Python repr of a string value, for the paths interpolated with !r
(quoting only; escape sequences do not arise in the inputs modelled). -/
def pyRepr (l : PyStr) : PyStr := squote :: l ++ [squote]

/-- One printed line of the status action (__init__.py lines 452-455); the
two-character sequence before the delta reproduces the bytes present in the
source literal. -/
def format_status_line (r : PyStr × PyStr × PyNum) : PyStr :=
  let diff_str :=
    if pyNumTruthy r.2.2 then "Â±".toList ++ padTo 4 (pyStrOfNum r.2.2)
    else "    ".toList
  "  ".toList ++ r.1 ++ ' ' :: diff_str ++ '\t' :: r.2.1

/-- Rendering of one remote in the list table (__init__.py line 420). -/
def fmt_remote (r : PyStr) : PyStr :=
  if r = "origin".toList then "[bright_black]".toList ++ r ++ "[/]".toList else r

/-- The -C filter (__init__.py lines 363-370): keep the repositories whose
git_status_files result is non-empty.  Also returns the output printed by the
queries. -/
def changed_filter (w : GitWorld) (wd : PyStr) (su debug : Bool) :
    List PyStr → Except String (List PyStr × List PyStr)
  | [] => Except.ok ([], [])
  | r :: rs =>
    let p := pyPathJoin wd r
    match git_status_files p (w.status_out p) (w.diff_stat_out p) su debug with
    | Except.error e => Except.error e
    | Except.ok (files, lg) =>
      match changed_filter w wd su debug rs with
      | Except.error e => Except.error e
      | Except.ok (keep, lgs) =>
        Except.ok ((if files ≠ [] then r :: keep else keep), lg ++ lgs)

/-- The -n scan (__init__.py lines 372-378): the first repository under
HOME/projects with changes, if any. -/
def next_scan (w : GitWorld) (su debug : Bool) :
    List PyStr → Except String (Option PyStr × List PyStr)
  | [] => Except.ok (none, [])
  | r :: rs =>
    let p := pyPathJoin (pyPathJoin w.home "projects".toList) r
    match git_status_files p (w.status_out p) (w.diff_stat_out p) su debug with
    | Except.error e => Except.error e
    | Except.ok (files, lg) =>
      if files ≠ [] then Except.ok (some r, lg)
      else
        match next_scan w su debug rs with
        | Except.error e => Except.error e
        | Except.ok (found, lgs) => Except.ok (found, lg ++ lgs)

/-- The status action loop (__init__.py lines 444-455): repositories without
changes are skipped silently; the others print a header and one line per
record.  Returns everything printed, in order. -/
def run_status (w : GitWorld) (wd : PyStr) (su debug : Bool) :
    List PyStr → Except String (List PyStr)
  | [] => Except.ok []
  | repo :: rest =>
    let p := pyPathJoin wd repo
    match git_status_files p (w.status_out p) (w.diff_stat_out p) su debug with
    | Except.error e => Except.error e
    | Except.ok (files, lg) =>
      let here :=
        if files = [] then lg
        else lg ++ ("Status for Repo: ".toList ++ repo) :: files.map format_status_line
      match run_status w wd su debug rest with
      | Except.error e => Except.error e
      | Except.ok more => Except.ok (here ++ more)

/-- The printed block for one file of the diff action (__init__.py lines
466-472). -/
def diff_file_block (fp : PyStr) (entries : List (Char × PyStr)) : List PyStr :=
  ("Diff for ".toList ++ pyRepr fp) ::
    entries.map (fun e =>
      if e.1 = '@' then "  ".toList ++ e.2
      else "  ".toList ++ e.1 :: '\t' :: e.2)

/-- The diff action loop (__init__.py lines 457-472); single is whether the
selected repository list has exactly one element (only then is the
no-changes message printed). -/
def run_diff (w : GitWorld) (wd : PyStr) (single : Bool) :
    List PyStr → Except String (List PyStr)
  | [] => Except.ok []
  | repo :: rest =>
    let p := pyPathJoin wd repo
    match git_diff p (w.diff_out p) with
    | Except.error e => Except.error e
    | Except.ok (file_diffs, lg) =>
      let here :=
        if file_diffs = [] then
          lg ++ (if single then ["Repository ".toList ++ repo ++ " has no changes.".toList] else [])
        else
          lg ++ ("Status for Repo: ".toList ++ repo) ::
            (file_diffs.map (fun fd => diff_file_block fd.1 fd.2)).flatten
      match run_diff w wd single rest with
      | Except.error e => Except.error e
      | Except.ok more => Except.ok (here ++ more)

/-- The reset, pull and push action loops (__init__.py lines 474-490): each
prints a progress line and the operation's own failure output. -/
def run_simple (verb : PyStr) (op : PyStr → RunResult → Bool × List PyStr)
    (out : PyStr → RunResult) (wd : PyStr) : List PyStr → List PyStr
  | [] => []
  | repo :: rest =>
    let p := pyPathJoin wd repo
    (verb ++ " Repo: ".toList ++ repo) :: (op p (out p)).2
      ++ run_simple verb op out wd rest

/-- One row of the list table (__init__.py lines 415-440): the row dict is
read back through the column list, missing cells becoming empty strings. -/
def list_row (ns : Args) (w : GitWorld) (wd : PyStr) (d : PyStr) :
    Except String (List PyStr × List PyStr) :=
  let p := pyPathJoin wd d
  let (remote_cell, lg1) :=
    if ns.show_remotes then
      let (rs, lg) := get_list_remotes p (w.remote_out p)
      (some (pyJoinChar '\n' (rs.map fmt_remote)), lg)
    else (none, [])
  match (if ns.status then
      match git_status_files p (w.status_out p) (w.diff_stat_out p) ns.show_untracked ns.debug with
      | Except.error e => Except.error e
      | Except.ok (files, lg) => Except.ok (some (pyStrOfNat files.length), lg)
    else Except.ok (none, [])) with
  | Except.error e => Except.error e
  | Except.ok (changes_cell, lg2) =>
    Except.ok ([changes_cell.getD [], d] ++
      (if ns.show_remotes then [remote_cell.getD []] else []), lg1 ++ lg2)

/-- All rows of the list table, in directory order. -/
def list_rows (ns : Args) (w : GitWorld) (wd : PyStr) :
    List PyStr → Except String (List (List PyStr) × List PyStr)
  | [] => Except.ok ([], [])
  | d :: ds =>
    match list_row ns w wd d with
    | Except.error e => Except.error e
    | Except.ok (row, lg) =>
      match list_rows ns w wd ds with
      | Except.error e => Except.error e
      | Except.ok (rows, lgs) => Except.ok (row :: rows, lg ++ lgs)

/-- Outcome of main: its return value (0 standing for the implicit None), the
rows of the table the list action prints, and every other printed line. -/
structure MainResult where
  retval : Int
  table : List (List PyStr)
  printed : List PyStr
deriving DecidableEq, Repr

/-- The list action (__init__.py lines 381-442): two flag-combination checks,
each intended to log and return 1 but actually raising TypeError inside
logger.error; then the directory list (repositories unless -O, plus the
sorted-in non-repositories under -N) is rendered into table rows. -/
def list_action (ns : Args) (w : GitWorld) (wd : PyStr) (repos : List PyStr) :
    Except String MainResult :=
  if ns.non_repos_only && !ns.non_repos then
    match vlogError ["Cannot specify -O/--only-non-repos without -N/--non-repos".toList] with
    | Except.error e => Except.error e
    | Except.ok _ => Except.ok ⟨1, [], []⟩
  else if ns.non_repos_only && ns.status then
    match vlogError ["Cannot specify -O/--only-non-repos with -s/--status".toList] with
    | Except.error e => Except.error e
    | Except.ok _ => Except.ok ⟨1, [], []⟩
  else
    let directories := if !ns.non_repos_only then repos else []
    let directories :=
      if ns.non_repos then pySortStrs (directories ++ non_repo_dirs w.listing)
      else directories
    match list_rows ns w wd directories with
    | Except.error e => Except.error e
    | Except.ok (rows, lg) => Except.ok ⟨0, rows, lg⟩

/-- main (__init__.py lines 335-493) with the parsed flags, the loaded config
repos entry and the external world as inputs.  Follows the source order: the
early check that --next and --repo conflict, repository selection, the -C and -n
filters, then the action dispatch.  Unknown actions raise
NotImplementedError. -/
def main_model (ns : Args) (wd : PyStr) (config_repos : Option (List PyStr))
    (w : GitWorld) : Except String MainResult :=
  if ns.next && repo_truthy ns.repo then
    Except.ok ⟨1, [], ["Cannot specify both --next and --repo".toList]⟩
  else
    let repos := select_repos ns.repo config_repos w.listing
    match (if ns.changed then changed_filter w wd ns.show_untracked ns.debug repos
      else Except.ok (repos, [])) with
    | Except.error e => Except.error e
    | Except.ok (repos, lg1) =>
      match (if ns.next then
          match next_scan w ns.show_untracked ns.debug repos with
          | Except.error e => Except.error e
          | Except.ok (found, lg) =>
            Except.ok ((match found with
              | some r => [r]
              | none => repos), lg)
        else Except.ok (repos, [])) with
      | Except.error e => Except.error e
      | Except.ok (repos, lg2) =>
        match ns.action with
        | "list" =>
          match list_action ns w wd repos with
          | Except.error e => Except.error e
          | Except.ok res => Except.ok ⟨res.retval, res.table, lg1 ++ lg2 ++ res.printed⟩
        | "status" =>
          match run_status w wd ns.show_untracked ns.debug repos with
          | Except.error e => Except.error e
          | Except.ok lg3 => Except.ok ⟨0, [], lg1 ++ lg2 ++ lg3⟩
        | "diff" =>
          match run_diff w wd (repos.length = 1) repos with
          | Except.error e => Except.error e
          | Except.ok lg3 => Except.ok ⟨0, [], lg1 ++ lg2 ++ lg3⟩
        | "reset" =>
          Except.ok ⟨0, [], lg1 ++ lg2 ++ run_simple "Resetting".toList git_reset w.reset_out wd repos⟩
        | "pull" =>
          Except.ok ⟨0, [], lg1 ++ lg2 ++ run_simple "Pulling".toList git_pull w.pull_out wd repos⟩
        | "push" =>
          Except.ok ⟨0, [], lg1 ++ lg2 ++ run_simple "Pushing".toList git_push w.push_out wd repos⟩
        | _ => Except.error "NotImplementedError"

/-- Flags with every option off and the list action selected. -/
def base_args : Args :=
  ⟨false, none, false, false, false, "list", false, false, false, false⟩

/-- A world with an empty working directory and every subprocess succeeding
with empty output. -/
def empty_world : GitWorld :=
  ⟨[], fun _ => ⟨0, []⟩, fun _ => ⟨0, []⟩, fun _ => ⟨0, []⟩, fun _ => ⟨0, []⟩,
    fun _ => ⟨0, []⟩, fun _ => ⟨0, []⟩, fun _ => ⟨0, []⟩, "/home/user".toList⟩

/-- Rendering of one recorded diff entry back into the kind of line git_diff
records it from: a hunk-header line for the marker @ (git always writes the
hunk range after "@@ "), a sign-plus-space line for + and -.  Used to state
the amended claim C2 as a parse-of-render roundtrip. -/
def render_entry : Char × PyStr → PyStr
  | ('@', t) => '@' :: '@' :: ' ' :: t
  | (m, t) => m :: ' ' :: t

/-- The file-header line opening a per-file diff section, diff --git a b. -/
def render_header (a b : PyStr) : PyStr :=
  "diff".toList ++ ' ' :: ("--git".toList ++ ' ' :: (a ++ ' ' :: b))

/-! ## Lemmas about the Python string primitives -/

theorem pySplitChar_ne_nil (sep : Char) (l : PyStr) : pySplitChar sep l ≠ [] := by
  cases l with
  | nil => simp [pySplitChar]
  | cons c rest =>
    simp only [pySplitChar]
    cases pySplitChar sep rest with
    | nil => simp
    | cons t ts => by_cases hc : c = sep <;> simp [hc]

theorem pySplitChar_cons_sep (sep : Char) (l : PyStr) :
    pySplitChar sep (sep :: l) = [] :: pySplitChar sep l := by
  simp only [pySplitChar]
  cases h : pySplitChar sep l with
  | nil => exact absurd h (pySplitChar_ne_nil sep l)
  | cons t ts => simp

theorem pySplitChar_cons_ne (sep c : Char) (l : PyStr) (hc : c ≠ sep)
    (t : PyStr) (ts : List PyStr) (h : pySplitChar sep l = t :: ts) :
    pySplitChar sep (c :: l) = (c :: t) :: ts := by
  simp only [pySplitChar, h]
  simp [hc]

theorem pySplitChar_no_sep (sep : Char) (xs : PyStr) (h : sep ∉ xs) :
    pySplitChar sep xs = [xs] := by
  induction xs with
  | nil => rfl
  | cons c rest ih =>
    have hc : c ≠ sep := fun hc => h (hc ▸ List.mem_cons_self c rest)
    have hrest : sep ∉ rest := fun hm => h (List.mem_cons_of_mem c hm)
    exact pySplitChar_cons_ne sep c rest hc rest [] (ih hrest)

theorem pySplitChar_append (sep : Char) (xs ys : PyStr) (h : sep ∉ xs) :
    pySplitChar sep (xs ++ sep :: ys) = xs :: pySplitChar sep ys := by
  induction xs with
  | nil => simpa using pySplitChar_cons_sep sep ys
  | cons c rest ih =>
    have hc : c ≠ sep := fun hc => h (hc ▸ List.mem_cons_self c rest)
    have hrest : sep ∉ rest := fun hm => h (List.mem_cons_of_mem c hm)
    rw [List.cons_append]
    exact pySplitChar_cons_ne sep c _ hc rest _ (ih hrest)

theorem pyJoinChar_split (sep : Char) (l : PyStr) :
    pyJoinChar sep (pySplitChar sep l) = l := by
  induction l with
  | nil => rfl
  | cons c rest ih =>
    simp only [pySplitChar]
    cases h : pySplitChar sep rest with
    | nil => exact absurd h (pySplitChar_ne_nil sep rest)
    | cons t ts =>
      rw [h] at ih
      by_cases hc : c = sep
      · subst hc
        simp only [if_pos rfl, pyJoinChar]
        cases ts <;> simp_all [pyJoinChar]
      · simp only [if_neg hc]
        cases ts with
        | nil => simpa [pyJoinChar] using congrArg (c :: ·) ih
        | cons t2 ts2 =>
          simp only [pyJoinChar] at ih ⊢
          rw [← ih]
          simp

theorem pySplitMax_one (sep : Char) (code path : PyStr) (h : sep ∉ code) :
    pySplitMax sep 1 (code ++ sep :: path) = [code, path] := by
  unfold pySplitMax
  rw [pySplitChar_append sep code path h]
  cases hsp : pySplitChar sep path with
  | nil => exact absurd hsp (pySplitChar_ne_nil sep path)
  | cons t ts =>
    have hjoin : pyJoinChar sep (t :: ts) = path := by
      rw [← hsp]; exact pyJoinChar_split sep path
    cases ts with
    | nil =>
      have : t = path := by simpa [pyJoinChar] using hjoin
      simp [this]
    | cons t2 ts2 => simp [hjoin]

theorem pySplitLines_single (l : PyStr) (hne : l ≠ []) (h : '\n' ∉ l) :
    pySplitLines l = [l] := by
  unfold pySplitLines
  rw [if_neg hne]
  simp [pySplitChar_no_sep '\n' l h, hne]

theorem pyStrip_cons_space (c : Char) (l : PyStr) (h : pyIsSpace c = true) :
    pyStrip (c :: l) = pyStrip l := by
  simp [pyStrip, List.dropWhile_cons, h]

theorem pyStrip_spaces_append (ws l : PyStr) (h : ∀ c ∈ ws, pyIsSpace c = true) :
    pyStrip (ws ++ l) = pyStrip l := by
  induction ws with
  | nil => rfl
  | cons c rest ih =>
    rw [List.cons_append, pyStrip_cons_space c _ (h c (List.mem_cons_self c rest)),
      ih (fun a ha => h a (List.mem_cons_of_mem c ha))]

theorem mem_of_head? {α : Type} {a : α} {l : List α} (h : a ∈ l.head?) : a ∈ l := by
  cases l with
  | nil => cases h
  | cons b r =>
    rw [List.head?_cons, Option.mem_def, Option.some.injEq] at h
    exact h ▸ List.mem_cons_self b r

theorem stripBack_eq_self (l : PyStr) (h : ∀ a ∈ l.reverse.head?, pyIsSpace a = false) :
    (l.reverse.dropWhile pyIsSpace).reverse = l := by
  cases hr : l.reverse with
  | nil =>
    have hl : l = [] := by simpa using congrArg List.reverse hr
    simp [hl]
  | cons a rest =>
    have ha : pyIsSpace a = false := by
      rw [hr] at h
      exact h a rfl
    simp only [List.dropWhile_cons, ha, Bool.false_eq_true, if_false]
    have := congrArg List.reverse hr
    simpa using this.symm

theorem pyStrip_eq_self (l : PyStr) (h1 : ∀ a ∈ l.head?, pyIsSpace a = false)
    (h2 : ∀ a ∈ l.reverse.head?, pyIsSpace a = false) : pyStrip l = l := by
  unfold pyStrip
  have hfront : l.dropWhile pyIsSpace = l := by
    cases l with
    | nil => rfl
    | cons c r => simp [List.dropWhile_cons, h1 c (by simp)]
  rw [hfront]
  exact stripBack_eq_self l h2

theorem digit_ne_char (c x : Char) (h : c.isDigit = true) (hx : x.isDigit = false) :
    c ≠ x := by
  rintro rfl
  rw [h] at hx
  exact Bool.noConfusion hx

theorem pyIsSpace_of_digit (c : Char) (h : c.isDigit = true) : pyIsSpace c = false := by
  cases hc : pyIsSpace c with
  | false => rfl
  | true =>
    have hx := hc
    simp only [pyIsSpace, Bool.or_eq_true, decide_eq_true_eq] at hx
    rcases hx with ((((rfl | rfl) | rfl) | rfl) | rfl) | rfl <;> exact absurd h (by decide)

theorem pyInt_digits (l : PyStr) (hne : l ≠ []) (h : ∀ c ∈ l, c.isDigit = true) :
    pyInt l = some ((digitsToNat l : Nat) : Int) := by
  have hstrip : pyStrip l = l := by
    refine pyStrip_eq_self l ?_ ?_
    · intro a ha
      exact pyIsSpace_of_digit a (h a (mem_of_head? ha))
    · intro a ha
      exact pyIsSpace_of_digit a (h a (List.mem_reverse.mp (mem_of_head? ha)))
  cases l with
  | nil => exact absurd rfl hne
  | cons c rest =>
    have hc : c.isDigit = true := h c (List.mem_cons_self c rest)
    have hplus : c ≠ '+' := digit_ne_char c '+' hc (by decide)
    have hminus : c ≠ '-' := digit_ne_char c '-' hc (by decide)
    have hall : (c :: rest).all Char.isDigit = true := by
      rw [List.all_eq_true]; exact h
    unfold pyInt
    rw [hstrip]
    split
    · rename_i heq
      injection heq with h1 _
      exact absurd h1 hplus
    · rename_i heq
      injection heq with h1 _
      exact absurd h1 hminus
    · simp [pyDigitsVal, hall]

theorem reverse_head?_append (a : Char) (l1 l2 : PyStr) (h : l2.reverse.head? = some a) :
    (l1 ++ l2).reverse.head? = some a := by
  rw [List.reverse_append]
  cases hr : l2.reverse with
  | nil => rw [hr] at h; cases h
  | cons b r =>
    rw [hr] at h
    cases h
    simp

theorem reverse_head?_cons_of_ne (c : Char) (l : PyStr) (h : l ≠ []) :
    (c :: l).reverse.head? = l.reverse.head? := by
  rw [List.reverse_cons]
  cases hr : l.reverse with
  | nil => exact absurd (by simpa using congrArg List.reverse hr) h
  | cons b r => simp

/-- Heads agree when one string starts with another. -/
theorem pyStartsWith_head (c p : Char) (l ps : PyStr)
    (h : pyStartsWith (c :: l) (p :: ps) = true) : c = p := by
  simp only [pyStartsWith, Bool.and_eq_true, decide_eq_true_eq] at h
  exact h.1

/-- An empty pattern is a head of every string. -/
theorem pyStartsWith_nil (l : PyStr) : pyStartsWith l [] = true := by
  cases l <;> rfl

theorem dictGet?_dictSet_self {α : Type} (d : List (PyStr × α)) (k : PyStr) (v : α) :
    dictGet? (dictSet d k v) k = some v := by
  induction d with
  | nil => simp [dictSet, dictGet?]
  | cons e rest ih =>
    obtain ⟨k0, v0⟩ := e
    by_cases h : k0 = k
    · simp [dictSet, dictGet?, h]
    · simp [dictSet, dictGet?, h, ih]

theorem dictSet_of_get {α : Type} (d : List (PyStr × α)) (k : PyStr) (v : α)
    (h : dictGet? d k = some v) : dictSet d k v = d := by
  induction d with
  | nil => simp [dictGet?] at h
  | cons e rest ih =>
    obtain ⟨k0, v0⟩ := e
    by_cases hk : k0 = k
    · simp [dictGet?, hk] at h
      simp [dictSet, hk, h]
    · simp [dictGet?, hk] at h
      simp [dictSet, hk, ih h]

theorem dictSet_dictSet {α : Type} (d : List (PyStr × α)) (k : PyStr) (x y : α) :
    dictSet (dictSet d k x) k y = dictSet d k y := by
  induction d with
  | nil => simp [dictSet]
  | cons e rest ih =>
    obtain ⟨k0, v0⟩ := e
    by_cases hk : k0 = k
    · simp [dictSet, hk]
    · simp [dictSet, hk, ih]

theorem pySplitChar_join (sep : Char) :
    ∀ (lines : List PyStr), lines ≠ [] → (∀ l ∈ lines, sep ∉ l) →
      pySplitChar sep (pyJoinChar sep lines) = lines
  | [], h, _ => absurd rfl h
  | [x], _, hf => by
    simp only [pyJoinChar]
    exact pySplitChar_no_sep sep x (hf x (List.mem_singleton.mpr rfl))
  | x :: y :: rest, _, hf => by
    simp only [pyJoinChar]
    rw [pySplitChar_append sep x _ (hf x (List.mem_cons_self x _))]
    rw [pySplitChar_join sep (y :: rest) (by simp)
      (fun l hl => hf l (List.mem_cons_of_mem x hl))]

theorem pySplitLines_join (lines : List PyStr) (h0 : lines ≠ [])
    (hnl : ∀ l ∈ lines, '\n' ∉ l) (hne : ∀ l ∈ lines, l ≠ []) :
    pySplitLines (pyJoinChar '\n' lines) = lines := by
  have hjoin_ne : pyJoinChar '\n' lines ≠ [] := by
    cases lines with
    | nil => exact absurd rfl h0
    | cons x rest =>
      cases rest with
      | nil =>
        simp only [pyJoinChar]
        exact hne x (List.mem_cons_self x _)
      | cons y r =>
        simp only [pyJoinChar]
        intro hc
        have := hne x (List.mem_cons_self x _)
        cases x with
        | nil => simp at hc
        | cons a l => simp at hc
  unfold pySplitLines
  rw [if_neg hjoin_ne, pySplitChar_join '\n' lines h0 hnl]
  have hlast : lines.getLastD ['x'] ≠ [] := by
    cases lines with
    | nil => exact absurd rfl h0
    | cons x rest =>
      rw [List.getLastD_cons]
      exact hne _ (List.getLastD_mem_cons rest x)
  rw [if_neg hlast]

theorem header_split3 (a b : PyStr) (ha : ' ' ∉ a) :
    (pySplitMax ' ' 3 (render_header a b)).get? 2 = some a := by
  unfold render_header pySplitMax
  rw [pySplitChar_append ' ' "diff".toList _ (by decide)]
  rw [pySplitChar_append ' ' "--git".toList _ (by decide)]
  rw [pySplitChar_append ' ' a _ ha]
  cases hb : pySplitChar ' ' b with
  | nil => exact absurd hb (pySplitChar_ne_nil ' ' b)
  | cons t ts =>
    cases ts with
    | nil => simp
    | cons t2 ts2 =>
      rw [if_neg (by simp)]
      simp

/-- Processing a file-header line: the current file becomes the third
space-separated token and is mapped to a fresh empty list. -/
theorem c2_header_step (d : List (PyStr × List (Char × PyStr))) (cur : Option PyStr)
    (a b : PyStr) (ha : ' ' ∉ a) :
    git_diff_step (d, cur) (render_header a b) = Except.ok (dictSet d a [], some a) := by
  have hh : diff_header_line (render_header a b) = true := rfl
  unfold git_diff_step
  rw [hh, header_split3 a b ha]
  simp

/-- Processing an added or removed line whose sign is followed by a space:
the entry (sign, text after the first space, stripped) is appended to the
current file's list. -/
theorem c2_step_sign (d : List (PyStr × List (Char × PyStr))) (cf : PyStr)
    (es : List (Char × PyStr)) (c : Char) (rest : PyStr)
    (hget : dictGet? d cf = some es) (hc : c = '+' ∨ c = '-') :
    git_diff_step (d, some cf) (c :: ' ' :: rest)
      = Except.ok (dictSet d cf (es ++ [(c, pyStrip rest)]), some cf) := by
  rcases hc with rfl | rfl
  · have hsplit : pySplitMax ' ' 1 ('+' :: ' ' :: rest) = [['+'], rest] := by
      rw [show ('+' :: ' ' :: rest : PyStr) = ['+'] ++ ' ' :: rest from rfl,
        pySplitMax_one ' ' ['+'] rest (by decide)]
    have h1 : diff_header_line ('+' :: ' ' :: rest) = false := rfl
    have h2 : pyStartsWith ('+' :: ' ' :: rest) "@@".toList = false := rfl
    have h3 : pyStartsWith ('+' :: ' ' :: rest) "+ ".toList = true := pyStartsWith_nil rest
    simp only [git_diff_step, h1, h2, h3, Bool.false_eq_true, if_false, if_true,
      diff_append, hget, hsplit]
    rfl
  · have hsplit : pySplitMax ' ' 1 ('-' :: ' ' :: rest) = [['-'], rest] := by
      rw [show ('-' :: ' ' :: rest : PyStr) = ['-'] ++ ' ' :: rest from rfl,
        pySplitMax_one ' ' ['-'] rest (by decide)]
    have h1 : diff_header_line ('-' :: ' ' :: rest) = false := rfl
    have h2 : pyStartsWith ('-' :: ' ' :: rest) "@@".toList = false := rfl
    have h3 : pyStartsWith ('-' :: ' ' :: rest) "+ ".toList = false := rfl
    have h4 : pyStartsWith ('-' :: ' ' :: rest) "- ".toList = true := pyStartsWith_nil rest
    simp only [git_diff_step, h1, h2, h3, h4, Bool.false_eq_true, if_false, if_true,
      diff_append, hget, hsplit]
    rfl

/-- Processing a hunk-header line (a space-free token beginning with two at
signs, a space, and the remainder): the entry with marker @ and the stripped
remainder is appended to the current file's list. -/
theorem c2_step_hunk (d : List (PyStr × List (Char × PyStr))) (cf : PyStr)
    (es : List (Char × PyStr)) (tok rest : PyStr)
    (hget : dictGet? d cf = some es)
    (htok : pyStartsWith tok "@@".toList = true) (hsp : ' ' ∉ tok) :
    git_diff_step (d, some cf) (tok ++ ' ' :: rest)
      = Except.ok (dictSet d cf (es ++ [('@', pyStrip rest)]), some cf) := by
  cases tok with
  | nil => simp [pyStartsWith] at htok
  | cons c l =>
    obtain rfl : c = '@' := pyStartsWith_head c '@' l ['@'] htok
    have h2 : pyStartsWith l ['@'] = true := by
      simpa [pyStartsWith] using htok
    cases l with
    | nil => simp [pyStartsWith] at h2
    | cons c2 l2 =>
      obtain rfl : c2 = '@' := pyStartsWith_head c2 '@' l2 [] h2
      have hsplit : pySplitMax ' ' 1 (('@' :: '@' :: l2) ++ ' ' :: rest)
          = [('@' :: '@' :: l2), rest] := pySplitMax_one ' ' _ rest hsp
      have h1 : diff_header_line (('@' :: '@' :: l2) ++ ' ' :: rest) = false := rfl
      have h3 : pyStartsWith (('@' :: '@' :: l2) ++ ' ' :: rest) "@@".toList = true :=
        pyStartsWith_nil (l2 ++ ' ' :: rest)
      simp only [git_diff_step, h1, h3, Bool.false_eq_true, if_false, if_true,
        diff_append, hget, hsplit]
      rfl

/-- Processing a hunk-header line that contains no space raises IndexError
from the index [1] into the one-field split. -/
theorem c2_step_hunk_nospace (d : List (PyStr × List (Char × PyStr))) (cf : PyStr)
    (es : List (Char × PyStr)) (rest0 : PyStr)
    (hget : dictGet? d cf = some es) (hsp : ' ' ∉ rest0) :
    git_diff_step (d, some cf) ('@' :: '@' :: rest0) = Except.error "IndexError" := by
  have hsp' : ' ' ∉ ('@' :: '@' :: rest0 : PyStr) := by
    intro hm
    rcases List.mem_cons.mp hm with hm | hm
    · exact absurd hm (by decide)
    rcases List.mem_cons.mp hm with hm | hm
    · exact absurd hm (by decide)
    · exact hsp hm
  have hsplit : pySplitMax ' ' 1 ('@' :: '@' :: rest0) = [('@' :: '@' :: rest0)] := by
    unfold pySplitMax
    rw [pySplitChar_no_sep ' ' _ hsp']
    simp
  have h1 : diff_header_line ('@' :: '@' :: rest0) = false := rfl
  have h3 : pyStartsWith ('@' :: '@' :: rest0) "@@".toList = true := pyStartsWith_nil rest0
  simp only [git_diff_step, h1, h3, Bool.false_eq_true, if_false, if_true,
    diff_append, hget, hsplit]
  rfl

/-- Processing the rendered lines of a list of well-formed entries appends
exactly those entries, in order, to the current file's list, and leaves the
rest of the input to be processed with the updated dictionary. -/
theorem c2_entries (l : List (Char × PyStr)) :
    ∀ (rest : List PyStr) (d : List (PyStr × List (Char × PyStr))) (cf : PyStr)
      (es : List (Char × PyStr)),
      dictGet? d cf = some es →
      (∀ e ∈ l, e.1 = '+' ∨ e.1 = '-' ∨ e.1 = '@') →
      (∀ e ∈ l, pyStrip e.2 = e.2) →
      git_diff_parse_lines (l.map render_entry ++ rest) (d, some cf)
        = git_diff_parse_lines rest (dictSet d cf (es ++ l), some cf) := by
  induction l with
  | nil =>
    intro rest d cf es hget _ _
    rw [List.map_nil, List.nil_append, List.append_nil, dictSet_of_get d cf es hget]
  | cons e l' ih =>
    intro rest d cf es hget hm hs
    obtain ⟨m, t⟩ := e
    have hstep : git_diff_step (d, some cf) (render_entry (m, t))
        = Except.ok (dictSet d cf (es ++ [(m, t)]), some cf) := by
      have hst : pyStrip t = t := hs (m, t) (List.mem_cons_self _ _)
      rcases hm (m, t) (List.mem_cons_self _ _) with hm1 | hm1 | hm1 <;> subst hm1
      · rw [show render_entry ('+', t) = '+' :: ' ' :: t from rfl,
          c2_step_sign d cf es '+' t hget (Or.inl rfl), hst]
      · rw [show render_entry ('-', t) = '-' :: ' ' :: t from rfl,
          c2_step_sign d cf es '-' t hget (Or.inr rfl), hst]
      · rw [show render_entry ('@', t) = ['@', '@'] ++ ' ' :: t from rfl,
          c2_step_hunk d cf es ['@', '@'] t hget (by decide) (by decide), hst]
    rw [List.map_cons, List.cons_append]
    simp only [git_diff_parse_lines, hstep]
    rw [ih rest (dictSet d cf (es ++ [(m, t)])) cf (es ++ [(m, t)])
      (dictGet?_dictSet_self d cf (es ++ [(m, t)]))
      (fun e he => hm e (List.mem_cons_of_mem _ he))
      (fun e he => hs e (List.mem_cons_of_mem _ he))]
    rw [dictSet_dictSet, List.append_assoc, List.singleton_append]

/-- A line git_diff ignores changes nothing in the loop state. -/
theorem git_diff_step_ignored (st : DiffState) (line : PyStr)
    (hh : diff_header_line line = false) (hm : diff_marker_line line = false) :
    git_diff_step st line = Except.ok st := by
  have hm' : ((pyStartsWith line "@@".toList || pyStartsWith line "+ ".toList)
      || pyStartsWith line "- ".toList) = false := hm
  obtain ⟨h12, h3⟩ := Bool.or_eq_false_iff.mp hm'
  obtain ⟨h1, h2⟩ := Bool.or_eq_false_iff.mp h12
  unfold git_diff_step
  rw [hh, h1, h2, h3]
  simp

theorem render_header_ne_nil (a b : PyStr) : render_header a b ≠ [] := by
  simp [render_header]

theorem render_header_nl (a b : PyStr) (hanl : '\n' ∉ a) (hbnl : '\n' ∉ b) :
    '\n' ∉ render_header a b := by
  intro hc
  unfold render_header at hc
  rcases List.mem_append.mp hc with h | h
  · exact absurd h (by decide)
  rcases List.mem_cons.mp h with h | h
  · exact absurd h (by decide)
  rcases List.mem_append.mp h with h | h
  · exact absurd h (by decide)
  rcases List.mem_cons.mp h with h | h
  · exact absurd h (by decide)
  rcases List.mem_append.mp h with h | h
  · exact hanl h
  rcases List.mem_cons.mp h with h | h
  · exact absurd h (by decide)
  · exact hbnl h

theorem render_entry_ne_nil (e : Char × PyStr) : render_entry e ≠ [] := by
  unfold render_entry
  split <;> simp

theorem render_entry_nl (e : Char × PyStr)
    (hm : e.1 = '+' ∨ e.1 = '-' ∨ e.1 = '@') (ht : '\n' ∉ e.2) :
    '\n' ∉ render_entry e := by
  obtain ⟨m, t⟩ := e
  simp only at hm ht
  rcases hm with rfl | rfl | rfl
  · rw [show render_entry ('+', t) = '+' :: ' ' :: t from rfl]
    intro hc
    rcases List.mem_cons.mp hc with h | hc
    · exact absurd h (by decide)
    rcases List.mem_cons.mp hc with h | hc
    · exact absurd h (by decide)
    · exact ht hc
  · rw [show render_entry ('-', t) = '-' :: ' ' :: t from rfl]
    intro hc
    rcases List.mem_cons.mp hc with h | hc
    · exact absurd h (by decide)
    rcases List.mem_cons.mp hc with h | hc
    · exact absurd h (by decide)
    · exact ht hc
  · rw [show render_entry ('@', t) = '@' :: '@' :: ' ' :: t from rfl]
    intro hc
    rcases List.mem_cons.mp hc with h | hc
    · exact absurd h (by decide)
    rcases List.mem_cons.mp hc with h | hc
    · exact absurd h (by decide)
    rcases List.mem_cons.mp hc with h | hc
    · exact absurd h (by decide)
    · exact ht hc

/-! ## Claims -/

/-- Claim C1, counterexample: parsing the claim's own input line (a space, M,
two spaces, setup.py) keeps the second separator space as part of the path,
so the produced record holds the path with a leading space, not the bare
setup.py the claim states. -/
theorem claim_C1_counterexample :
    git_status_files "repo".toList ⟨0, " M  setup.py".toList⟩ ⟨0, []⟩ false false
      = Except.ok ([(['M'], " setup.py".toList, PyNum.int 0)], [])
    ∧ (" setup.py".toList : PyStr) ≠ "setup.py".toList :=
  ⟨by decide, by decide⟩

/-- Claim C1 (amended): for a short-status line made of optional leading
spaces, a whitespace-free status code, a single separator space and a path
that does not end in whitespace, git_status_files recovers the
status code (with ?? renamed U) and exactly that path, with line delta 0 when
the diff-stat table is empty.  With two spaces between code and path the
second space becomes part of the recovered path, as the counterexample
shows. -/
theorem claim_C1_amended (ws code path : PyStr)
    (hws : ∀ c ∈ ws, c = ' ')
    (hcode_ne : code ≠ [])
    (hcode : ∀ c ∈ code, pyIsSpace c = false)
    (hpath_ne : path ≠ [])
    (hpath_last : ∀ a ∈ path.reverse.head?, pyIsSpace a = false)
    (hpath_nl : '\n' ∉ path) :
    git_status_files "repo".toList ⟨0, ws ++ code ++ ' ' :: path⟩ ⟨0, []⟩ true false
      = Except.ok ([((if code = "??".toList then ['U'] else code), path, PyNum.int 0)], []) := by
  rw [List.append_assoc]
  have hnl : '\n' ∉ ws ++ (code ++ ' ' :: path) := by
    intro hm
    rcases List.mem_append.mp hm with hm | hm
    · exact absurd (hws _ hm) (by decide)
    · rcases List.mem_append.mp hm with hm | hm
      · exact absurd (hcode _ hm) (by decide)
      · rcases List.mem_cons.mp hm with hm | hm
        · exact absurd hm (by decide)
        · exact hpath_nl hm
  have hne : ws ++ (code ++ ' ' :: path) ≠ [] := by simp
  have hstrip : pyStrip (ws ++ (code ++ ' ' :: path)) = code ++ ' ' :: path := by
    rw [pyStrip_spaces_append ws _ (fun c hc => by rw [hws c hc]; rfl)]
    refine pyStrip_eq_self _ ?_ ?_
    · intro a ha
      cases code with
      | nil => exact absurd rfl hcode_ne
      | cons c0 r =>
        rw [List.cons_append, List.head?_cons, Option.mem_def, Option.some.injEq] at ha
        exact ha ▸ hcode c0 (List.mem_cons_self c0 r)
    · intro a ha
      cases hp : path.reverse with
      | nil => exact absurd (by simpa using congrArg List.reverse hp) hpath_ne
      | cons b r =>
        have h2 : (' ' :: path).reverse.head? = some b := by
          rw [reverse_head?_cons_of_ne ' ' path hpath_ne, hp]
          rfl
        have h3 := reverse_head?_append b code (' ' :: path) h2
        rw [h3, Option.mem_def, Option.some.injEq] at ha
        have hb : pyIsSpace b = false := hpath_last b (by rw [hp]; exact rfl)
        exact ha ▸ hb
  have hspace_code : ' ' ∉ code := fun hm => by
    have := hcode ' ' hm
    simp [pyIsSpace] at this
  have hsplit : pySplitMax ' ' 1 (code ++ ' ' :: path) = [code, path] :=
    pySplitMax_one ' ' code path hspace_code
  have hds : git_diff_stat_of ⟨0, []⟩ false = Except.ok ([], []) := by decide
  simp only [git_status_files, hds]
  rw [pySplitLines_single _ hne hnl]
  simp only [List.map_cons, List.map_nil, hstrip, hsplit]
  simp [unpack_pairs, status_record, dictGetD, dictGet?]

/-- Witness for the amended claim C1 at the single-space line built from the
code M and the path setup.py. -/
theorem claim_C1_amended_witness :
    git_status_files "repo".toList ⟨0, [' '] ++ ['M'] ++ ' ' :: "setup.py".toList⟩ ⟨0, []⟩ true false
      = Except.ok ([((if ['M'] = "??".toList then ['U'] else ['M']), "setup.py".toList, PyNum.int 0)], []) :=
  claim_C1_amended [' '] ['M'] "setup.py".toList (by decide) (by decide) (by decide)
    (by decide) (by decide) (by decide)

/-- Claim C3: the code contradicts the claim.  On a diff-stat line whose
change field is neither the binary form nor an integer, git_status_files does
not log, substitute NaN and continue: the recovery path calls logger.error
with a single positional argument, so a TypeError aborts the whole parse
(debug mode off). -/
theorem claim_C3_code_eval :
    git_status_files "repo".toList ⟨0, []⟩ ⟨0, "file.txt | notanumber".toList⟩ false false
      = Except.error "TypeError: missing required positional argument: msg" := by
  decide

/-- Claim C2, counterexample: an added line whose + is not followed by a
space (here +x) is not recorded at all, although the claim states every added
line is recorded under the marker +.  The file's entry list stays empty. -/
theorem claim_C2_counterexample :
    git_diff "repo".toList ⟨0, "diff --git a/f b/f\n+x".toList⟩
      = Except.ok ([("a/f".toList, [])], [])
    ∧ ('+', "x".toList) ∉ ([] : List (Char × PyStr)) :=
  ⟨rfl, List.not_mem_nil _⟩

/-- Claim C2 (amended): an added or removed line whose sign is immediately
followed by a space is recorded under marker '+' or '-', and a hunk-header
line (a space-free token beginning with two at signs, a space, and the hunk
text) is recorded under '@'; in each case the stored text is the part of the
line after its first space with surrounding whitespace stripped.
Added/removed lines whose sign is not followed by a space and all other
lines with no recognized prefix are ignored, and a hunk-header line
containing no space raises IndexError instead of being recorded.  Parsing
any two-file diff made of two distinct file headers, each followed by the
rendered lines of its entries (texts carrying no surrounding whitespace),
returns exactly two independent per-file ordered lists preserving the
marker/text order of the input. -/
theorem claim_C2_amended (a1 b1 a2 b2 : PyStr) (l1 l2 : List (Char × PyStr))
    (ha1 : ' ' ∉ a1) (ha2 : ' ' ∉ a2) (h12 : a1 ≠ a2)
    (ha1nl : '\n' ∉ a1) (hb1nl : '\n' ∉ b1) (ha2nl : '\n' ∉ a2) (hb2nl : '\n' ∉ b2)
    (hm1 : ∀ e ∈ l1, e.1 = '+' ∨ e.1 = '-' ∨ e.1 = '@')
    (hs1 : ∀ e ∈ l1, pyStrip e.2 = e.2)
    (ht1 : ∀ e ∈ l1, '\n' ∉ e.2)
    (hm2 : ∀ e ∈ l2, e.1 = '+' ∨ e.1 = '-' ∨ e.1 = '@')
    (hs2 : ∀ e ∈ l2, pyStrip e.2 = e.2)
    (ht2 : ∀ e ∈ l2, '\n' ∉ e.2) :
    git_diff "repo".toList
        ⟨0, pyJoinChar '\n' (render_header a1 b1 :: l1.map render_entry
          ++ render_header a2 b2 :: l2.map render_entry)⟩
      = Except.ok ([(a1, l1), (a2, l2)], [])
    ∧ (∀ (d : List (PyStr × List (Char × PyStr))) (cf : PyStr)
        (es : List (Char × PyStr)) (c : Char) (rest : PyStr),
        dictGet? d cf = some es → (c = '+' ∨ c = '-') →
        git_diff_step (d, some cf) (c :: ' ' :: rest)
          = Except.ok (dictSet d cf (es ++ [(c, pyStrip rest)]), some cf))
    ∧ (∀ (d : List (PyStr × List (Char × PyStr))) (cf : PyStr)
        (es : List (Char × PyStr)) (tok rest : PyStr),
        dictGet? d cf = some es → pyStartsWith tok "@@".toList = true → ' ' ∉ tok →
        git_diff_step (d, some cf) (tok ++ ' ' :: rest)
          = Except.ok (dictSet d cf (es ++ [('@', pyStrip rest)]), some cf))
    ∧ (∀ (st : DiffState) (c : Char) (rest : PyStr),
        (c = '+' ∨ c = '-') → rest.head? ≠ some ' ' →
        git_diff_step st (c :: rest) = Except.ok st)
    ∧ (∀ (st : DiffState) (line : PyStr),
        diff_header_line line = false → diff_marker_line line = false →
        git_diff_step st line = Except.ok st)
    ∧ (∀ (d : List (PyStr × List (Char × PyStr))) (cf : PyStr)
        (es : List (Char × PyStr)) (rest0 : PyStr),
        dictGet? d cf = some es → ' ' ∉ rest0 →
        git_diff_step (d, some cf) ('@' :: '@' :: rest0) = Except.error "IndexError") := by
  refine ⟨?_, c2_step_sign, c2_step_hunk, ?_, git_diff_step_ignored, c2_step_hunk_nospace⟩
  · have hlines_ne : (render_header a1 b1 :: l1.map render_entry
        ++ render_header a2 b2 :: l2.map render_entry) ≠ [] := by simp
    have hnl_all : ∀ l ∈ (render_header a1 b1 :: l1.map render_entry
        ++ render_header a2 b2 :: l2.map render_entry), '\n' ∉ l := by
      intro l hl
      rw [List.cons_append, List.mem_cons] at hl
      rcases hl with rfl | hl
      · exact render_header_nl a1 b1 ha1nl hb1nl
      rcases List.mem_append.mp hl with hl | hl
      · obtain ⟨e, he, rfl⟩ := List.mem_map.mp hl
        exact render_entry_nl e (hm1 e he) (ht1 e he)
      rcases List.mem_cons.mp hl with rfl | hl
      · exact render_header_nl a2 b2 ha2nl hb2nl
      · obtain ⟨e, he, rfl⟩ := List.mem_map.mp hl
        exact render_entry_nl e (hm2 e he) (ht2 e he)
    have hempty_all : ∀ l ∈ (render_header a1 b1 :: l1.map render_entry
        ++ render_header a2 b2 :: l2.map render_entry), l ≠ [] := by
      intro l hl
      rw [List.cons_append, List.mem_cons] at hl
      rcases hl with rfl | hl
      · exact render_header_ne_nil a1 b1
      rcases List.mem_append.mp hl with hl | hl
      · obtain ⟨e, _, rfl⟩ := List.mem_map.mp hl
        exact render_entry_ne_nil e
      rcases List.mem_cons.mp hl with rfl | hl
      · exact render_header_ne_nil a2 b2
      · obtain ⟨e, _, rfl⟩ := List.mem_map.mp hl
        exact render_entry_ne_nil e
    have hget1 : dictGet? (dictSet ([] : List (PyStr × List (Char × PyStr))) a1 []) a1
        = some [] := dictGet?_dictSet_self [] a1 []
    have s2 := c2_entries l1 (render_header a2 b2 :: l2.map render_entry)
      (dictSet [] a1 []) a1 [] hget1 hm1 hs1
    have e1 : dictSet (dictSet ([] : List (PyStr × List (Char × PyStr))) a1 []) a1 ([] ++ l1)
        = [(a1, l1)] := by
      rw [dictSet_dictSet, List.nil_append]
      rfl
    rw [e1] at s2
    have e2 : dictSet [(a1, l1)] a2 ([] : List (Char × PyStr)) = [(a1, l1), (a2, [])] := by
      simp [dictSet, h12]
    have hget2 : dictGet? [(a1, l1), (a2, ([] : List (Char × PyStr)))] a2 = some [] := by
      simp [dictGet?, h12]
    have s4 := c2_entries l2 [] [(a1, l1), (a2, [])] a2 [] hget2 hm2 hs2
    rw [List.append_nil, List.nil_append] at s4
    have e3 : dictSet [(a1, l1), (a2, ([] : List (Char × PyStr)))] a2 l2
        = [(a1, l1), (a2, l2)] := by
      simp [dictSet, h12]
    rw [e3] at s4
    have hparse : git_diff_parse_lines (render_header a1 b1 :: l1.map render_entry
        ++ render_header a2 b2 :: l2.map render_entry) ([], none)
        = Except.ok ([(a1, l1), (a2, l2)], some a2) := by
      rw [List.cons_append]
      simp only [git_diff_parse_lines, c2_header_step [] none a1 b1 ha1]
      rw [s2]
      simp only [git_diff_parse_lines, c2_header_step [(a1, l1)] (some a1) a2 b2 ha2, e2]
      rw [s4]
      rfl
    unfold git_diff
    rw [if_neg (by simp)]
    rw [pySplitLines_join _ hlines_ne hnl_all hempty_all]
    unfold git_diff_parse
    rw [hparse]
  · intro st c rest hc hsp
    refine git_diff_step_ignored st (c :: rest) ?_ ?_
    · rcases hc with rfl | rfl <;> rfl
    · have hsw : pyStartsWith rest [' '] = false := by
        cases rest with
        | nil => rfl
        | cons r rs =>
          have hr : r ≠ ' ' := fun h => hsp (by rw [List.head?_cons, h])
          simp [pyStartsWith, hr]
      rcases hc with rfl | rfl
      · have f1 : pyStartsWith ('+' :: rest) "@@".toList = false := rfl
        have f2 : pyStartsWith ('+' :: rest) "+ ".toList = pyStartsWith rest [' '] := rfl
        have f3 : pyStartsWith ('+' :: rest) "- ".toList = false := rfl
        show (pyStartsWith ('+' :: rest) "@@".toList || pyStartsWith ('+' :: rest) "+ ".toList
          || pyStartsWith ('+' :: rest) "- ".toList) = false
        rw [f1, f2, f3, hsw]
        rfl
      · have f1 : pyStartsWith ('-' :: rest) "@@".toList = false := rfl
        have f2 : pyStartsWith ('-' :: rest) "+ ".toList = false := rfl
        have f3 : pyStartsWith ('-' :: rest) "- ".toList = pyStartsWith rest [' '] := rfl
        show (pyStartsWith ('-' :: rest) "@@".toList || pyStartsWith ('-' :: rest) "+ ".toList
          || pyStartsWith ('-' :: rest) "- ".toList) = false
        rw [f1, f2, f3, hsw]
        rfl

/-- Witness for the amended claim C2: a concrete two-file diff whose entries
are recovered exactly, in order. -/
theorem claim_C2_amended_witness :
    git_diff "repo".toList
        ⟨0, pyJoinChar '\n' (render_header "a/f1".toList "b/f1".toList
          :: [('@', "-1,2 +1,2 @@ h1".toList), ('-', "old".toList), ('+', "new".toList)].map render_entry
          ++ render_header "a/f2".toList "b/f2".toList
          :: [('@', "-3 +3 @@".toList), ('+', "added".toList)].map render_entry)⟩
      = Except.ok ([("a/f1".toList,
            [('@', "-1,2 +1,2 @@ h1".toList), ('-', "old".toList), ('+', "new".toList)]),
          ("a/f2".toList,
            [('@', "-3 +3 @@".toList), ('+', "added".toList)])], []) :=
  (claim_C2_amended "a/f1".toList "b/f1".toList "a/f2".toList "b/f2".toList
    [('@', "-1,2 +1,2 @@ h1".toList), ('-', "old".toList), ('+', "new".toList)]
    [('@', "-3 +3 @@".toList), ('+', "added".toList)]
    (by decide) (by decide) (by decide) (by decide) (by decide) (by decide) (by decide)
    (by decide) (by decide) (by decide) (by decide) (by decide) (by decide)).1

/-- Claim C5: the code contradicts the claim.  The --next with --repo
combination does print the problem and return 1 before touching any
repository, but both invalid list combinations (-O without -N, and -O with
-s) raise TypeError out of logger.error instead of returning 1: the
single-argument call leaves the msg parameter unbound. -/
theorem claim_C5_code_eval :
    main_model { base_args with next := true, repo := some ["r".toList] }
        "wd".toList none empty_world
      = Except.ok ⟨1, [], ["Cannot specify both --next and --repo".toList]⟩
    ∧ main_model { base_args with non_repos_only := true } "wd".toList none empty_world
      = Except.error "TypeError: missing required positional argument: msg"
    ∧ main_model { base_args with non_repos_only := true, non_repos := true, status := true }
        "wd".toList none empty_world
      = Except.error "TypeError: missing required positional argument: msg" :=
  ⟨by decide, by decide, by decide⟩

/-- A marker line reaching the loop with no current file raises KeyError. -/
theorem git_diff_step_marker_none (d : List (PyStr × List (Char × PyStr)))
    (line : PyStr) (hm : diff_marker_line line = true) :
    git_diff_step (d, none) line = Except.error "KeyError: None" := by
  have hm' : ((pyStartsWith line "@@".toList || pyStartsWith line "+ ".toList)
      || pyStartsWith line "- ".toList) = true := hm
  have hh : diff_header_line line = false := by
    cases line with
    | nil => simp [pyStartsWith] at hm'
    | cons c rest =>
      have hc : c = '@' ∨ c = '+' ∨ c = '-' := by
        rcases Bool.or_eq_true_iff.mp hm' with h | h
        · rcases Bool.or_eq_true_iff.mp h with h1 | h1
          · exact Or.inl (pyStartsWith_head c '@' rest ['@'] h1)
          · exact Or.inr (Or.inl (pyStartsWith_head c '+' rest [' '] h1))
        · exact Or.inr (Or.inr (pyStartsWith_head c '-' rest [' '] h))
      rcases hc with rfl | rfl | rfl <;> simp [diff_header_line, pyStartsWith]
  unfold git_diff_step
  rw [hh]
  simp only [Bool.false_eq_true, if_false]
  cases h1 : pyStartsWith line "@@".toList with
  | true => simp [h1, diff_append]
  | false =>
    cases h2 : pyStartsWith line "+ ".toList with
    | true => simp [h1, h2, diff_append]
    | false =>
      cases h3 : pyStartsWith line "- ".toList with
      | true => simp [h1, h2, h3, diff_append]
      | false =>
        rw [h1, h2, h3] at hm'
        simp at hm'

/-- Claim C8: a hunk-header, added or removed marker line appearing before
any diff --git file header makes git_diff raise an uncaught KeyError (there
is no current-file entry to append to) instead of ignoring the line. -/
theorem claim_C8 (before : List PyStr) (line : PyStr) (rest : List PyStr)
    (hb : ∀ p ∈ before, diff_header_line p = false ∧ diff_marker_line p = false)
    (hl : diff_marker_line line = true) :
    git_diff_parse (before ++ line :: rest) = Except.error "KeyError: None" := by
  induction before with
  | nil =>
    simp only [List.nil_append, git_diff_parse, git_diff_parse_lines]
    rw [git_diff_step_marker_none [] line hl]
  | cons p ps ih =>
    have hp := hb p (List.mem_cons_self p ps)
    have hrest : ∀ q ∈ ps, diff_header_line q = false ∧ diff_marker_line q = false :=
      fun q hq => hb q (List.mem_cons_of_mem p hq)
    simp only [List.cons_append, git_diff_parse, git_diff_parse_lines] at ih ⊢
    rw [git_diff_step_ignored ([], none) p hp.1 hp.2]
    exact ih hrest

/-- Witness for claim C8: a lone hunk header as the whole diff output. -/
theorem claim_C8_witness :
    git_diff_parse ([] ++ "@@ -1 +1 @@ x".toList :: []) = Except.error "KeyError: None" :=
  claim_C8 [] "@@ -1 +1 @@ x".toList [] (by simp) (by decide)

/-- Claim C9: every VerbosityLogger logging method called with a single
positional argument raises TypeError, because that argument binds the
verbosity parameter and msg stays unbound; the recover function of
error_recovery and the list action's flag validation make exactly such
calls. -/
theorem claim_C9 (msg : PyStr) (debug : Bool) (exc : Option PyStr)
    (w : GitWorld) (wd : PyStr) (repos : List PyStr) (ns : Args)
    (hO : ns.non_repos_only = true) (hN : ns.non_repos = false) :
    vlogError [msg] = Except.error "TypeError: missing required positional argument: msg"
    ∧ vlogDebug [msg] = Except.error "TypeError: missing required positional argument: msg"
    ∧ vlogInfo [msg] = Except.error "TypeError: missing required positional argument: msg"
    ∧ vlogWarning [msg] = Except.error "TypeError: missing required positional argument: msg"
    ∧ vlogCritical [msg] = Except.error "TypeError: missing required positional argument: msg"
    ∧ error_recovery_error debug msg exc
        = Except.error "TypeError: missing required positional argument: msg"
    ∧ list_action ns w wd repos
        = Except.error "TypeError: missing required positional argument: msg" := by
  refine ⟨rfl, rfl, rfl, rfl, rfl, rfl, ?_⟩
  simp [list_action, hO, hN, vlogError, vlogCall]

/-- Witness for claim C9 at a concrete message and the list -O flags. -/
theorem claim_C9_witness :
    vlogError ["boom".toList] = Except.error "TypeError: missing required positional argument: msg"
    ∧ list_action { base_args with non_repos_only := true } empty_world "wd".toList []
        = Except.error "TypeError: missing required positional argument: msg" :=
  ⟨(claim_C9 "boom".toList false none empty_world "wd".toList []
      { base_args with non_repos_only := true } rfl rfl).1,
   (claim_C9 "boom".toList false none empty_world "wd".toList []
      { base_args with non_repos_only := true } rfl rfl).2.2.2.2.2.2⟩

/-- Claim C6: when the status, diff or remote subprocess of a repository
exits non-zero, the corresponding query prints a failure message and returns
an empty result, and the status action's loop over the remaining
repositories continues unchanged (shown for the failing repository at the
head of the list: its only contribution to the output is the failure
message). -/
theorem claim_C6 (w : GitWorld) (wd r : PyStr) (rest : List PyStr) (su debug : Bool)
    (ds : List (PyStr × PyNum)) (dslogs : List PyStr)
    (hs : (w.status_out (pyPathJoin wd r)).returncode ≠ 0)
    (hparse : git_diff_stat_of (w.diff_stat_out (pyPathJoin wd r)) debug
      = Except.ok (ds, dslogs)) :
    git_status_files (pyPathJoin wd r) (w.status_out (pyPathJoin wd r))
        (w.diff_stat_out (pyPathJoin wd r)) su debug
      = Except.ok ([], dslogs ++ ["git status failed for ".toList ++ pyPathJoin wd r])
    ∧ (∀ res : RunResult, res.returncode ≠ 0 →
        git_diff (pyPathJoin wd r) res
          = Except.ok ([], ["git diff failed for ".toList ++ pyPathJoin wd r]))
    ∧ (∀ res : RunResult, res.returncode ≠ 0 →
        get_list_remotes (pyPathJoin wd r) res
          = ([], ["git remote failed for ".toList ++ pyPathJoin wd r]))
    ∧ run_status w wd su debug (r :: rest)
        = Except.map
            (fun out => (dslogs ++ ["git status failed for ".toList ++ pyPathJoin wd r]) ++ out)
            (run_status w wd su debug rest) := by
  have h1 : git_status_files (pyPathJoin wd r) (w.status_out (pyPathJoin wd r))
      (w.diff_stat_out (pyPathJoin wd r)) su debug
      = Except.ok ([], dslogs ++ ["git status failed for ".toList ++ pyPathJoin wd r]) := by
    simp only [git_status_files, hparse]
    simp [hs]
  refine ⟨h1, ?_, ?_, ?_⟩
  · intro res hres
    simp [git_diff, hres]
  · intro res hres
    simp [get_list_remotes, hres]
  · simp only [run_status, h1]
    cases hrest : run_status w wd su debug rest <;> simp [Except.map]

/-- Witness for claim C6: one repository whose git subprocesses all fail. -/
theorem claim_C6_witness :
    (let w : GitWorld :=
      ⟨[], fun _ => ⟨1, []⟩, fun _ => ⟨1, []⟩, fun _ => ⟨1, []⟩, fun _ => ⟨1, []⟩,
        fun _ => ⟨1, []⟩, fun _ => ⟨1, []⟩, fun _ => ⟨1, []⟩, "/home/user".toList⟩
     git_status_files (pyPathJoin "wd".toList "r".toList)
        (w.status_out (pyPathJoin "wd".toList "r".toList))
        (w.diff_stat_out (pyPathJoin "wd".toList "r".toList)) false false
      = Except.ok ([], [] ++ ["git status failed for ".toList ++ pyPathJoin "wd".toList "r".toList])
    ∧ run_status w "wd".toList false false ["r".toList]
        = Except.map
            (fun out => ([] ++ ["git status failed for ".toList ++ pyPathJoin "wd".toList "r".toList]) ++ out)
            (run_status w "wd".toList false false [])) := by
  have h := claim_C6
    ⟨[], fun _ => ⟨1, []⟩, fun _ => ⟨1, []⟩, fun _ => ⟨1, []⟩, fun _ => ⟨1, []⟩,
      fun _ => ⟨1, []⟩, fun _ => ⟨1, []⟩, fun _ => ⟨1, []⟩, "/home/user".toList⟩
    "wd".toList "r".toList [] false false [] [] (by decide) (by decide)
  exact ⟨h.1, h.2.2.2⟩

/-- Claim C7: with no -r repositories and no config repos entry, the selected
repositories are exactly the working-directory entries that are directories
whose own listing contains a .git entry; a non-empty -r list or a present
config entry (even an empty one) overrides the probe. -/
theorem claim_C7 (listing : List (PyStr × Option (List PyStr)))
    (r0 : PyStr) (rs cfg : List PyStr) :
    (∀ r : PyStr, r ∈ select_repos none none listing ↔
      ∃ es, (r, some es) ∈ listing ∧ ".git".toList ∈ es)
    ∧ select_repos (some (r0 :: rs)) none listing = r0 :: rs
    ∧ select_repos (some (r0 :: rs)) (some cfg) listing = r0 :: rs
    ∧ select_repos none (some cfg) listing = cfg
    ∧ select_repos (some []) (some cfg) listing = cfg := by
  refine ⟨?_, rfl, rfl, rfl, rfl⟩
  intro r
  simp only [select_repos, List.mem_map, List.mem_filter]
  constructor
  · rintro ⟨⟨name, es?⟩, ⟨hmem, hfil⟩, rfl⟩
    cases es? with
    | none => simp at hfil
    | some es =>
      refine ⟨es, hmem, ?_⟩
      simpa using hfil
  · rintro ⟨es, hmem, hgit⟩
    exact ⟨(r, some es), ⟨hmem, by simpa using hgit⟩, rfl⟩

/-- Claim C10: a record built for a file with no entry in the parsed
diff-stat dictionary carries the integer 0 line delta (the dictionary lookup
default), never the NaN sentinel. -/
theorem claim_C10 (repo_path : PyStr) (status_result diff_stat_out : RunResult)
    (su debug : Bool) (ds : List (PyStr × PyNum)) (dslogs : List PyStr)
    (recs : List (PyStr × PyStr × PyNum)) (logs : List PyStr)
    (c fp : PyStr) (d : PyNum)
    (hds : git_diff_stat_of diff_stat_out debug = Except.ok (ds, dslogs))
    (hrun : git_status_files repo_path status_result diff_stat_out su debug
      = Except.ok (recs, logs))
    (hmem : (c, fp, d) ∈ recs)
    (hnone : dictGet? ds fp = none) :
    d = PyNum.int 0 := by
  simp only [git_status_files, hds] at hrun
  split at hrun
  · rw [Except.ok.injEq, Prod.mk.injEq] at hrun
    rw [← hrun.1] at hmem
    simp at hmem
  · split at hrun
    · exact Except.noConfusion hrun
    · rw [Except.ok.injEq, Prod.mk.injEq] at hrun
      rw [← hrun.1] at hmem
      obtain ⟨p, hp, hsr⟩ := List.mem_filterMap.mp hmem
      unfold status_record at hsr
      split at hsr
      · rw [Option.some.injEq, Prod.mk.injEq, Prod.mk.injEq] at hsr
        obtain ⟨-, hfp, hd⟩ := hsr
        rw [← hfp] at hnone
        rw [← hd]
        simp [dictGetD, hnone]
      · exact Option.noConfusion hsr

/-- Witness for claim C10: an untracked file absent from the (empty)
diff-stat dictionary gets delta 0. -/
theorem claim_C10_witness :
    git_status_files "repo".toList ⟨0, "?? new.txt".toList⟩ ⟨0, []⟩ true false
      = Except.ok ([(['U'], "new.txt".toList, PyNum.int 0)], [])
    ∧ PyNum.int 0 = PyNum.int 0 :=
  ⟨by decide,
   claim_C10 "repo".toList ⟨0, "?? new.txt".toList⟩ ⟨0, []⟩ true false [] []
     [(['U'], "new.txt".toList, PyNum.int 0)] [] ['U'] "new.txt".toList (PyNum.int 0)
     (by decide) (by decide) (by decide) (by decide)⟩

/-- Claim C4: a diff-stat line whose change field has the binary form
Bin old -> new bytes parses to exactly new minus old as the integer line
delta for the stripped file path; the change counts are arbitrary digit
strings. -/
theorem claim_C4 (fp olds news : PyStr)
    (hfp_pipe : '|' ∉ fp) (hfp_nl : '\n' ∉ fp)
    (holds_ne : olds ≠ []) (holds : ∀ c ∈ olds, c.isDigit = true)
    (hnews_ne : news ≠ []) (hnews : ∀ c ∈ news, c.isDigit = true) :
    parse_diff_stat false
        (fp ++ '|' :: ' ' :: "Bin".toList ++ ' ' :: olds ++ ' ' :: "->".toList
          ++ ' ' :: news ++ ' ' :: "bytes".toList)
      = Except.ok ([(pyStrip fp,
          PyNum.int ((digitsToNat news : Int) - (digitsToNat olds : Int)))], []) := by
  have h_olds_sp : ' ' ∉ olds := fun hm => absurd (holds ' ' hm) (by decide)
  have h_news_sp : ' ' ∉ news := fun hm => absurd (hnews ' ' hm) (by decide)
  have h_olds_nl : '\n' ∉ olds := fun hm => absurd (holds '\n' hm) (by decide)
  have h_news_nl : '\n' ∉ news := fun hm => absurd (hnews '\n' hm) (by decide)
  have h_olds_pipe : '|' ∉ olds := fun hm => absurd (holds '|' hm) (by decide)
  have h_news_pipe : '|' ∉ news := fun hm => absurd (hnews '|' hm) (by decide)
  set stripped : PyStr :=
    "Bin".toList ++ ' ' :: (olds ++ ' ' :: ("->".toList ++ ' ' :: (news ++ ' ' :: "bytes".toList)))
    with hstr_def
  have hline : (fp ++ '|' :: ' ' :: "Bin".toList ++ ' ' :: olds ++ ' ' :: "->".toList
      ++ ' ' :: news ++ ' ' :: "bytes".toList) = fp ++ '|' :: ' ' :: stripped := by
    simp [hstr_def, List.append_assoc]
  rw [hline]
  have hmem_stripped : ∀ c : Char, c ∈ stripped →
      c ∈ "Bin".toList ∨ c = ' ' ∨ c ∈ olds ∨ c ∈ "->".toList ∨ c ∈ news
        ∨ c ∈ "bytes".toList := by
    intro c hm
    rw [hstr_def] at hm
    rcases List.mem_append.mp hm with hm | hm
    · exact Or.inl hm
    rcases List.mem_cons.mp hm with hm | hm
    · exact Or.inr (Or.inl hm)
    rcases List.mem_append.mp hm with hm | hm
    · exact Or.inr (Or.inr (Or.inl hm))
    rcases List.mem_cons.mp hm with hm | hm
    · exact Or.inr (Or.inl hm)
    rcases List.mem_append.mp hm with hm | hm
    · exact Or.inr (Or.inr (Or.inr (Or.inl hm)))
    rcases List.mem_cons.mp hm with hm | hm
    · exact Or.inr (Or.inl hm)
    rcases List.mem_append.mp hm with hm | hm
    · exact Or.inr (Or.inr (Or.inr (Or.inr (Or.inl hm))))
    rcases List.mem_cons.mp hm with hm | hm
    · exact Or.inr (Or.inl hm)
    · exact Or.inr (Or.inr (Or.inr (Or.inr (Or.inr hm))))
  have h_nl_stripped : '\n' ∉ stripped := by
    intro hm
    rcases hmem_stripped '\n' hm with h | h | h | h | h | h
    · exact absurd h (by decide)
    · exact absurd h (by decide)
    · exact h_olds_nl h
    · exact absurd h (by decide)
    · exact h_news_nl h
    · exact absurd h (by decide)
  have h_pipe_stripped : '|' ∉ stripped := by
    intro hm
    rcases hmem_stripped '|' hm with h | h | h | h | h | h
    · exact absurd h (by decide)
    · exact absurd h (by decide)
    · exact h_olds_pipe h
    · exact absurd h (by decide)
    · exact h_news_pipe h
    · exact absurd h (by decide)
  have hnl_line : '\n' ∉ fp ++ '|' :: ' ' :: stripped := by
    intro hm
    rcases List.mem_append.mp hm with hm | hm
    · exact hfp_nl hm
    rcases List.mem_cons.mp hm with hm | hm
    · exact absurd hm (by decide)
    rcases List.mem_cons.mp hm with hm | hm
    · exact absurd hm (by decide)
    · exact h_nl_stripped hm
  have hne_line : fp ++ '|' :: ' ' :: stripped ≠ [] := by simp
  have hpipe_changes : '|' ∉ (' ' :: stripped) := by
    intro hm
    rcases List.mem_cons.mp hm with hm | hm
    · exact absurd hm (by decide)
    · exact h_pipe_stripped hm
  have hsplit_pipe : pySplitChar '|' (fp ++ '|' :: ' ' :: stripped) = [fp, ' ' :: stripped] := by
    rw [pySplitChar_append '|' fp _ hfp_pipe, pySplitChar_no_sep '|' _ hpipe_changes]
  have htok : pySplitChar ' ' stripped
      = ["Bin".toList, olds, "->".toList, news, "bytes".toList] := by
    rw [hstr_def]
    rw [pySplitChar_append ' ' "Bin".toList _ (by decide)]
    rw [pySplitChar_append ' ' olds _ h_olds_sp]
    rw [pySplitChar_append ' ' "->".toList _ (by decide)]
    rw [pySplitChar_append ' ' news _ h_news_sp]
    rw [pySplitChar_no_sep ' ' "bytes".toList (by decide)]
  have hne2 : (news ++ ' ' :: "bytes".toList : PyStr) ≠ [] := by simp
  have hne3 : ("->".toList ++ ' ' :: (news ++ ' ' :: "bytes".toList) : PyStr) ≠ [] := by simp
  have hne4 : (olds ++ ' ' :: ("->".toList ++ ' ' :: (news ++ ' ' :: "bytes".toList)) : PyStr) ≠ [] := by
    simp
  have hstrip : pyStrip (' ' :: stripped) = stripped := by
    rw [pyStrip_cons_space ' ' _ (by decide)]
    refine pyStrip_eq_self _ ?_ ?_
    · intro a ha
      have hB : stripped.head? = some 'B' := by rw [hstr_def]; rfl
      rw [hB, Option.mem_def, Option.some.injEq] at ha
      exact ha ▸ (by decide : pyIsSpace 'B' = false)
    · intro a ha
      have e1 : ((' ' :: "bytes".toList : PyStr)).reverse.head? = some 's' := by
        rw [reverse_head?_cons_of_ne ' ' _ (by decide)]
        rfl
      have e2 : ((news ++ ' ' :: "bytes".toList : PyStr)).reverse.head? = some 's' :=
        reverse_head?_append 's' news _ e1
      have e3 : ((' ' :: (news ++ ' ' :: "bytes".toList) : PyStr)).reverse.head? = some 's' := by
        rw [reverse_head?_cons_of_ne ' ' _ hne2]
        exact e2
      have e4 : (("->".toList ++ ' ' :: (news ++ ' ' :: "bytes".toList) : PyStr)).reverse.head?
          = some 's' := reverse_head?_append 's' "->".toList _ e3
      have e5 : ((' ' :: ("->".toList ++ ' ' :: (news ++ ' ' :: "bytes".toList)) : PyStr)).reverse.head?
          = some 's' := by
        rw [reverse_head?_cons_of_ne ' ' _ hne3]
        exact e4
      have e6 : ((olds ++ ' ' :: ("->".toList ++ ' ' :: (news ++ ' ' :: "bytes".toList)) : PyStr)).reverse.head?
          = some 's' := reverse_head?_append 's' olds _ e5
      have e7 : ((' ' :: (olds ++ ' ' :: ("->".toList ++ ' ' :: (news ++ ' ' :: "bytes".toList))) : PyStr)).reverse.head?
          = some 's' := by
        rw [reverse_head?_cons_of_ne ' ' _ hne4]
        exact e6
      have e8 : stripped.reverse.head? = some 's' := by
        rw [hstr_def]
        exact reverse_head?_append 's' "Bin".toList _ e7
      rw [e8, Option.mem_def, Option.some.injEq] at ha
      exact ha ▸ (by decide : pyIsSpace 's' = false)
  have hint_olds : pyInt olds = some ((digitsToNat olds : Nat) : Int) :=
    pyInt_digits olds holds_ne holds
  have hint_news : pyInt news = some ((digitsToNat news : Nat) : Int) :=
    pyInt_digits news hnews_ne hnews
  have hstep : diff_stat_step false (fp ++ '|' :: ' ' :: stripped) ([], [])
      (fp ++ '|' :: ' ' :: stripped)
      = Except.ok ([(pyStrip fp,
          PyNum.int ((digitsToNat news : Int) - (digitsToNat olds : Int)))], []) := by
    unfold diff_stat_step
    simp only [hsplit_pipe, hstrip, htok, List.headD_cons]
    rw [show pyStartsWith (pyLower "Bin".toList) "bin".toList = true from by decide]
    simp only [if_true, hint_olds, hint_news, dictSet]
  unfold parse_diff_stat
  rw [pySplitLines_single _ hne_line hnl_line]
  simp only [diff_stat_lines, hstep]

/-- Witness for claim C4 at the spec's own example, the line
file.bin | Bin 100 -> 200 bytes, whose delta is 100. -/
theorem claim_C4_witness :
    parse_diff_stat false
        ("file.bin ".toList ++ '|' :: ' ' :: "Bin".toList ++ ' ' :: "100".toList
          ++ ' ' :: "->".toList ++ ' ' :: "200".toList ++ ' ' :: "bytes".toList)
      = Except.ok ([("file.bin".toList, PyNum.int 100)], []) :=
  (claim_C4 "file.bin ".toList "100".toList "200".toList (by decide) (by decide)
    (by decide) (by decide) (by decide) (by decide)).trans (by decide)

end Rack
